import Mathlib

/-!
Verification of the framecheck validation engine (`schema_builder.py` and the
check classes it orchestrates) against its natural-language specification.

The repository ships the orchestration layer as compiled bytecode
(`src/src/__pycache__/schema_builder.cpython-38.pyc`): its recoverable structure
(class `ValidationResult` with `errors`, `warnings`, `is_valid = len(errors) == 0`,
`summary` built from a list of lines joined by newline, and class `Schema.validate`
which walks the checks, emits "Column '<name>' does not exist in DataFrame." for a
missing column and routes every message to `errors` or `warnings` through a
`target` chosen by the check's `raise_on_fail` flag) is embedded directly.  The
individual check classes and `get_invalid_rows` are not present under `src/`;
those definitions are modelled from the spec and from the repository's documented
inputs/outputs (README.md, docs/source/usage_examples.rst) and are marked
`Modelled from the spec:` below.
-/

namespace Framecheck

/-- Cell values of the in-memory table (pandas Series elements): integers,
floats (modelled as rationals), strings, booleans, and missing values. -/
inductive Value where
  | int (n : Int)
  | float (q : ℚ)
  | str (s : String)
  | bool (b : Bool)
  | null
  deriving DecidableEq, Repr

/-- Python-repr-style rendering of a value, used when a message lists offending
values.  Only the integer rendering is pinned by documented outputs; the float
rendering models Python repr for whole floats. -/
def Value.render : Value → String
  | Value.int n => toString n
  | Value.float q => if q.den = 1 then toString q.num ++ ".0" else toString q.num ++ "/" ++ toString q.den
  | Value.str s => "\x27" ++ s ++ "\x27"
  | Value.bool b => if b then "True" else "False"
  | Value.null => "None"

/-- Rendering of a list of offending values, Python-list style. -/
def renderList (vs : List Value) : String :=
  "[" ++ String.intercalate ", " (vs.map Value.render) ++ "]"

/-- Rendering of a list of column names, Python-list style. -/
def renderCols (ks : List String) : String :=
  "[" ++ String.intercalate ", " (ks.map (fun s => "\x27" ++ s ++ "\x27")) ++ "]"

/-- The tabular data structure consumed by validation: named columns and rows of
cells addressed positionally (spec section 1: an in-memory columnar table with
typed columns, row indices, and boolean masking). -/
structure Table where
  columns : List String
  rows : List (List Value)
  deriving DecidableEq, Repr

/-- Position of a column name in the header (pandas column lookup). -/
def Table.colIdx (t : Table) (name : String) : Option Nat :=
  t.columns.findIdx? (fun c => c == name)

/-- The series of values under a named column (`df[name]`), if the column
exists; a row shorter than the header reads as a missing value. -/
def Table.series (t : Table) (name : String) : Option (List Value) :=
  (t.colIdx name).map (fun i => t.rows.map (fun r => r.getD i Value.null))

/-- Value of one row under one column name; null when the column is absent. -/
def cellOf (t : Table) (r : List Value) (name : String) : Value :=
  match t.colIdx name with
  | some i => r.getD i Value.null
  | none => Value.null

/-- Severity of a check result: errors fail validity, warnings do not. -/
inductive Severity where
  | error
  | warning
  deriving DecidableEq, Repr

/-- The declared semantic type of a column type check. -/
inductive ColumnType where
  | intType
  | floatType
  | stringType
  | boolType
  deriving DecidableEq, Repr

/-- Modelled from the spec: type conformance (spec 4.1: values must be
convertible to the declared type without information loss; a value with a
non-zero fractional part fails an integer-type check; nulls are exempt from
type checking).  The integer case is also pinned by README.md, where column
`age = [25, 18, 85.0]` declared `type=int` passes, and by the documented
message, which rejects values that are not "integer-like". -/
def typePasses : ColumnType → Value → Bool
  | _, Value.null => true
  | ColumnType.intType, Value.int _ => true
  | ColumnType.intType, Value.float q => q.den == 1
  | ColumnType.intType, _ => false
  | ColumnType.floatType, Value.float _ => true
  | ColumnType.floatType, Value.int _ => true
  | ColumnType.floatType, _ => false
  | ColumnType.stringType, Value.str _ => true
  | ColumnType.stringType, _ => false
  | ColumnType.boolType, Value.bool _ => true
  | ColumnType.boolType, _ => false

/-- The column-scoped check variants carried by a column check (spec 3:
type tag; min/max bounds; allowed/disallowed sets; exact-match literal;
per-value predicate with a description; not-null).  The regex variant is
outside this embedding (no regex engine is modelled); no claim mentions it. -/
inductive ColumnRule where
  | typeIs (ty : ColumnType)
  | range (lo hi : Option Value)
  | inSet (allowed : List Value)
  | notInSet (disallowed : List Value)
  | equalsVal (v : Value)
  | notNull
  | custom (fn : Value → Option Bool) (description : String)

/-- A column-scoped check: target column, variant parameters, and the
warn-only flag (the complement of `raise_on_fail` in schema_builder.pyc). -/
structure ColumnCheck where
  column_name : String
  rule : ColumnRule
  warn_only : Bool

/-- Severity of a column check: warnings when warn-only, else errors. -/
def ColumnCheck.severity (c : ColumnCheck) : Severity :=
  if c.warn_only then Severity.warning else Severity.error

/-- A check of the check set: a column check, or the table-level uniqueness
check over an optional key-column subset (spec 4.2). -/
inductive Check where
  | col (c : ColumnCheck)
  | unique (key : Option (List String)) (warn_only : Bool)

/-- Distinct offending values in order of first occurrence (pandas-unique
style), used when a message lists example offending values. -/
def dedupFirst : List Value → List Value
  | [] => []
  | v :: vs => v :: dedupFirst (vs.filter (fun w => !(w == v)))
termination_by l => l.length
decreasing_by
  simp only [List.length_cons]
  exact Nat.lt_succ_of_le (List.length_filter_le _ _)

/-- Numeric view of a value for bound comparisons. -/
def Value.toRat? : Value → Option ℚ
  | Value.int n => some (n : ℚ)
  | Value.float q => some q
  | _ => none

/-- Whether a value violates a lower bound: strictly below min (spec 4.1:
bounds inclusive; only numeric values are compared, nulls exempt). -/
def belowBound (lo : Option Value) (v : Value) : Bool :=
  match v.toRat?, lo.bind Value.toRat? with
  | some q, some b => decide (q < b)
  | _, _ => false

/-- Whether a value violates an upper bound: strictly above max. -/
def aboveBound (hi : Option Value) (v : Value) : Bool :=
  match v.toRat?, hi.bind Value.toRat? with
  | some q, some b => decide (b < q)
  | _, _ => false

/-- Rendering of an optional bound inside a range message. -/
def boundRender : Option Value → String
  | some v => v.render
  | none => "None"

/-- Message of a failed type check; the integer text is from
docs/source/usage_examples.rst and the README, the others are modelled. -/
def typeMsg (name : String) (ty : ColumnType) (offenders : List Value) : String :=
  match ty with
  | ColumnType.intType =>
      "Column \x27" ++ name ++ "\x27 contains values that are not integer-like (e.g., decimals or strings): " ++ renderList offenders ++ "."
  | ColumnType.floatType =>
      "Column \x27" ++ name ++ "\x27 contains values that are not float-like: " ++ renderList offenders ++ "."
  | ColumnType.stringType =>
      "Column \x27" ++ name ++ "\x27 contains non-string values: " ++ renderList offenders ++ "."
  | ColumnType.boolType =>
      "Column \x27" ++ name ++ "\x27 contains values that are not boolean: " ++ renderList offenders ++ "."

/-- Message of a violated lower bound (docs/source/usage_examples.rst):
it names the bound and does not list the offending values. -/
def ltMsg (name : String) (lo : Option Value) : String :=
  "Column \x27" ++ name ++ "\x27 has values less than " ++ boundRender lo ++ "."

/-- Message of a violated upper bound (docs/source/usage_examples.rst). -/
def gtMsg (name : String) (hi : Option Value) : String :=
  "Column \x27" ++ name ++ "\x27 has values greater than " ++ boundRender hi ++ "."

/-- Message of a failed allowed-set check (docs/source/usage_examples.rst). -/
def inSetMsg (name : String) (offenders : List Value) : String :=
  "Column \x27" ++ name ++ "\x27 contains values not in allowed set: " ++ renderList offenders ++ "."

/-- Message of a failed disallowed-set check (README output). -/
def notInSetMsg (name : String) (offenders : List Value) : String :=
  "Column \x27" ++ name ++ "\x27 contains disallowed values: " ++ renderList offenders ++ "."

/-- Message of a failed equality check (README output). -/
def equalsMsg (name : String) (v : Value) (offenders : List Value) : String :=
  "Column \x27" ++ name ++ "\x27 must equal " ++ v.render ++ ", but found values: " ++ renderList offenders ++ "."

/-- Message of a failed not-null check (README output). -/
def notNullMsg (name : String) : String :=
  "Column \x27" ++ name ++ "\x27 contains missing values."

/-- Modelled from the spec: evaluation of one column rule over the column's
series, returning the failure messages and the fault set of row indices
(spec 4.1 per-variant semantics; the concrete check classes are absent from
src/).  The custom-predicate case embeds the per-value try/except of spec 7:
a predicate that raises (`none`) is treated as a failed value. -/
def evalRule (name : String) (rule : ColumnRule) (series : List Value) :
    List String × List Nat :=
  match rule with
  | ColumnRule.typeIs ty =>
      let bad := series.enum.filter (fun p => !(typePasses ty p.2))
      ((if bad.isEmpty then [] else [typeMsg name ty (dedupFirst (bad.map Prod.snd))]),
       bad.map Prod.fst)
  | ColumnRule.range lo hi =>
      let below := series.enum.filter (fun p => belowBound lo p.2)
      let above := series.enum.filter (fun p => aboveBound hi p.2)
      let msgs :=
        (if below.isEmpty then [] else [ltMsg name lo]) ++
        (if above.isEmpty then [] else [gtMsg name hi])
      (msgs, (series.enum.filter (fun p => belowBound lo p.2 || aboveBound hi p.2)).map Prod.fst)
  | ColumnRule.inSet allowed =>
      let bad := series.enum.filter (fun p => !(p.2 == Value.null) && !(allowed.contains p.2))
      ((if bad.isEmpty then [] else [inSetMsg name (dedupFirst (bad.map Prod.snd))]),
       bad.map Prod.fst)
  | ColumnRule.notInSet disallowed =>
      let bad := series.enum.filter (fun p => disallowed.contains p.2)
      ((if bad.isEmpty then [] else [notInSetMsg name (dedupFirst (bad.map Prod.snd))]),
       bad.map Prod.fst)
  | ColumnRule.equalsVal v =>
      let bad := series.enum.filter (fun p => !(p.2 == Value.null) && !(p.2 == v))
      ((if bad.isEmpty then [] else [equalsMsg name v (dedupFirst (bad.map Prod.snd))]),
       bad.map Prod.fst)
  | ColumnRule.notNull =>
      let bad := series.enum.filter (fun p => p.2 == Value.null)
      ((if bad.isEmpty then [] else [notNullMsg name]), bad.map Prod.fst)
  | ColumnRule.custom fn desc =>
      let bad := series.enum.filter (fun p => !(p.2 == Value.null) && !((fn p.2).getD false))
      ((if bad.isEmpty then [] else [desc ++ " (failed on " ++ toString bad.length ++ " row(s))"]),
       bad.map Prod.fst)

/-- Modelled from the spec: key tuple of one row under the optional key-column
subset of a uniqueness check; default (none) is the whole row (spec 4.2). -/
def rowKey (t : Table) (key : Option (List String)) (r : List Value) : List Value :=
  match key with
  | none => r
  | some ks => ks.map (cellOf t r)

/-- Key tuples of all rows, in row order. -/
def uniqueKeys (t : Table) (key : Option (List String)) : List (List Value) :=
  t.rows.map (rowKey t key)

/-- Modelled from the spec: the pandas duplicated(keep=False) mask as an index
list: row i is a fault iff its key also occurs earlier or later in the list
(spec 4.2: every row of a duplicate group is flagged, first occurrence
included). -/
def dupFaults (keys : List (List Value)) : List Nat :=
  (keys.enum.filter (fun p =>
    (keys.take p.1).contains p.2 || (keys.drop (p.1 + 1)).contains p.2)).map Prod.fst

/-- Message of a failed uniqueness check (docs/source/usage_examples.rst). -/
def uniqueMsg : Option (List String) → String
  | none => "Rows are not unique."
  | some ks => "Rows are not unique based on columns: " ++ renderCols ks

/-- What one check reports: its failure messages, its severity, and its fault
set of row indices. -/
structure CheckOutcome where
  messages : List String
  severity : Severity
  faults : List Nat
  deriving DecidableEq, Repr

/-- Message of Schema.validate (schema_builder.pyc) for a check whose target
column does not exist in the table. -/
def missingMsg (name : String) : String :=
  "Column \x27" ++ name ++ "\x27 does not exist in DataFrame."

/-- One step of Schema.validate (schema_builder.pyc), with the check and the
table threaded through as explicit state (the Python code passes object
references; the embedding passes them in and returns them).  A column check
whose column is absent contributes the single missing-column message at the
check's own severity and no row faults; otherwise the check runs over the
column's series.  The uniqueness check runs over the whole table. -/
def runCheckSt (c : Check) (t : Table) : CheckOutcome × Check × Table :=
  match c with
  | Check.col cc =>
      match t.series cc.column_name with
      | none => (⟨[missingMsg cc.column_name], cc.severity, []⟩, c, t)
      | some s =>
          let ev := evalRule cc.column_name cc.rule s
          (⟨ev.1, cc.severity, ev.2⟩, c, t)
  | Check.unique key w =>
      let faults := dupFaults (uniqueKeys t key)
      let msgs := if faults.isEmpty then [] else [uniqueMsg key]
      (⟨msgs, if w then Severity.warning else Severity.error, faults⟩, c, t)

/-- Outcome of one check against a table. -/
def runCheck (t : Table) (c : Check) : CheckOutcome :=
  (runCheckSt c t).1

/-- The validation outcome (ValidationResult in schema_builder.pyc): the ordered
error messages, the ordered warning messages, and, per failing check, its fault
set tagged with that check's severity (spec 3; the fault records feed
get_invalid_rows). -/
structure ValidationResult where
  errors : List String
  warnings : List String
  fault_records : List (Severity × List Nat)
  deriving DecidableEq, Repr

/-- Merging one check outcome in front of the result of the later checks:
messages go to errors or warnings by severity (`target = errors if
check.raise_on_fail else warnings` in Schema.validate), and a failing check
records its fault set tagged with its severity. -/
def accumulate (o : CheckOutcome) (r : ValidationResult) : ValidationResult :=
  match o.severity with
  | Severity.error =>
      ⟨o.messages ++ r.errors, r.warnings,
        if o.faults.isEmpty then r.fault_records
        else (Severity.error, o.faults) :: r.fault_records⟩
  | Severity.warning =>
      ⟨r.errors, o.messages ++ r.warnings,
        if o.faults.isEmpty then r.fault_records
        else (Severity.warning, o.faults) :: r.fault_records⟩

/-- Schema.validate (schema_builder.pyc) with the check list and the table
threaded as explicit state: every check runs in insertion order, no
short-circuit, and the final state carries the checks and table back out. -/
def validateRun : List Check → Table → ValidationResult × List Check × Table
  | [], t => (⟨[], [], []⟩, [], t)
  | c :: cs, t =>
      let step := runCheckSt c t
      let rest := validateRun cs step.2.2
      (accumulate step.1 rest.1, step.2.1 :: rest.2.1, rest.2.2)

/-- CheckSet validation: the ValidationResult of running every check. -/
def validate (cs : List Check) (t : Table) : ValidationResult :=
  (validateRun cs t).1

/-- is_valid (schema_builder.pyc): `len(self.errors) == 0`. -/
def ValidationResult.is_valid (r : ValidationResult) : Bool :=
  r.errors.length == 0

/-- summary (schema_builder.pyc): a header line, a counts line, then an
Errors section when there are errors and a Warnings section when there are
warnings, each message prefixed by two spaces and a dash; the lines are
joined with newlines. -/
def ValidationResult.summary (r : ValidationResult) : String :=
  let lines : List String :=
    ["Validation " ++ (if r.is_valid then "PASSED" else "FAILED"),
     toString r.errors.length ++ " error(s), " ++ toString r.warnings.length ++ " warning(s)"]
    ++ (if r.errors.isEmpty then [] else "Errors:" :: r.errors.map (fun e => "  - " ++ e))
    ++ (if r.warnings.isEmpty then [] else "Warnings:" :: r.warnings.map (fun w => "  - " ++ w))
  String.intercalate "\n" lines

/-- Modelled from the spec: the union of fault indices that get_invalid_rows
consumes (spec 3 row-fault record, spec 6): every index in an error-severity
fault set, plus, when include_warnings, every index in a warning-severity
fault set.  get_invalid_rows itself is absent from src/. -/
def ValidationResult.invalidIndices (r : ValidationResult) (include_warnings : Bool) : List Nat :=
  ((r.fault_records.filter (fun p =>
    p.1 == Severity.error || (include_warnings && p.1 == Severity.warning))).map Prod.snd).flatten

/-- Modelled from the spec: get_invalid_rows(table, include_warnings) — in the
API the flag defaults to true — selects the rows of the original table whose
positional index lies in the fault union, by boolean masking over row
positions, so row order is that of the original table (spec 6, README). -/
def ValidationResult.get_invalid_rows (r : ValidationResult) (t : Table) (include_warnings : Bool) : List (List Value) :=
  (t.rows.enum.filter (fun p => (r.invalidIndices include_warnings).contains p.1)).map Prod.snd

/-- Concatenation of a list of strings, used by the claim-side summary format. -/
def concatAll : List String → String
  | [] => ""
  | x :: xs => x ++ concatAll xs

/-- The summary report as the spec/claims word it (spec 6): header line
"Validation PASSED|FAILED", newline, counts line "n error(s), m warning(s)",
then, when there are errors, an "Errors:" section listing each error message
on its own line prefixed "  - ", then, when there are warnings, a "Warnings:"
section formatted the same way.  Stated against this, `summary` is the
refinement obligation of claim C5. -/
def summarySpec (r : ValidationResult) : String :=
  (if r.errors.isEmpty then "Validation PASSED" else "Validation FAILED")
  ++ "\n" ++ toString r.errors.length ++ " error(s), " ++ toString r.warnings.length ++ " warning(s)"
  ++ (if r.errors.isEmpty then "" else "\nErrors:" ++ concatAll (r.errors.map (fun e => "\n  - " ++ e)))
  ++ (if r.warnings.isEmpty then "" else "\nWarnings:" ++ concatAll (r.warnings.map (fun w => "\n  - " ++ w)))

/-- The rows get_invalid_rows must return, as the claim words it: the rows of
the original table whose index appears in some error-severity fault set or,
when include_warnings, in some warning-severity fault set. -/
def invalidRowsSpec (r : ValidationResult) (t : Table) (include_warnings : Bool) : List (List Value) :=
  (t.rows.enum.filter (fun p =>
    r.fault_records.any (fun fr =>
      (fr.1 == Severity.error || (include_warnings && fr.1 == Severity.warning)) &&
      fr.2.contains p.1))).map Prod.snd

/-- Error messages one check contributes to the final result. -/
def errOf (t : Table) (c : Check) : List String :=
  match (runCheck t c).severity with
  | Severity.error => (runCheck t c).messages
  | Severity.warning => []

/-- Warning messages one check contributes to the final result. -/
def warnOf (t : Table) (c : Check) : List String :=
  match (runCheck t c).severity with
  | Severity.error => []
  | Severity.warning => (runCheck t c).messages

/-- Fault records one check contributes to the final result. -/
def recOf (t : Table) (c : Check) : List (Severity × List Nat) :=
  if (runCheck t c).faults.isEmpty then []
  else [((runCheck t c).severity, (runCheck t c).faults)]

theorem runCheckSt_snd (c : Check) (t : Table) : (runCheckSt c t).2 = (c, t) := by
  cases c with
  | col cc =>
      unfold runCheckSt
      cases h : t.series cc.column_name <;> simp [h]
  | unique key w => rfl

theorem validate_nil (t : Table) : validate [] t = ⟨[], [], []⟩ := rfl

theorem validate_cons (c : Check) (cs : List Check) (t : Table) :
    validate (c :: cs) t = accumulate (runCheck t c) (validate cs t) := by
  simp only [validate, validateRun, runCheckSt_snd, runCheck]

theorem validate_errors (cs : List Check) (t : Table) :
    (validate cs t).errors = (cs.map (errOf t)).flatten := by
  induction cs with
  | nil => rfl
  | cons c cs ih =>
      rw [validate_cons]
      cases h : (runCheck t c).severity <;>
        simp [accumulate, h, errOf, ih]

theorem validate_warnings (cs : List Check) (t : Table) :
    (validate cs t).warnings = (cs.map (warnOf t)).flatten := by
  induction cs with
  | nil => rfl
  | cons c cs ih =>
      rw [validate_cons]
      cases h : (runCheck t c).severity <;>
        simp [accumulate, h, warnOf, ih]

theorem validate_records (cs : List Check) (t : Table) :
    (validate cs t).fault_records = (cs.map (recOf t)).flatten := by
  induction cs with
  | nil => rfl
  | cons c cs ih =>
      rw [validate_cons]
      cases h : (runCheck t c).severity <;>
        cases hf : (runCheck t c).faults.isEmpty <;>
          simp [accumulate, h, hf, recOf, ih]

theorem validateRun_snd (cs : List Check) (t : Table) :
    (validateRun cs t).2 = (cs, t) := by
  induction cs generalizing t with
  | nil => rfl
  | cons c cs ih =>
      simp only [validateRun, runCheckSt_snd, ih]

/-- C1: for every table T and every check set C, `C.validate(T).is_valid` is
true iff the errors list is empty, and is_valid is insensitive to the warnings
list: replacing the warnings of the result by any list leaves is_valid
unchanged. -/
theorem validate_is_valid_iff_errors_empty (cs : List Check) (t : Table) :
    ((validate cs t).is_valid = true ↔ (validate cs t).errors = [])
    ∧ ∀ ws : List String,
        (ValidationResult.mk (validate cs t).errors ws (validate cs t).fault_records).is_valid
          = (validate cs t).is_valid := by
  constructor
  · simp [ValidationResult.is_valid, List.length_eq_zero]
  · intro ws
    rfl

/-- C8: validation is deterministic and mutates nothing.  With the check list
and the table threaded through evaluation as explicit state, both come back
unchanged, and rerunning validate on the state a first run hands back yields
the very result of the first run (identical errors and warnings, content and
order). -/
theorem validate_deterministic_and_pure (cs : List Check) (t : Table) :
    (validateRun cs t).2.1 = cs
    ∧ (validateRun cs t).2.2 = t
    ∧ (validateRun (validateRun cs t).2.1 (validateRun cs t).2.2).1 = validate cs t := by
  have h := validateRun_snd cs t
  refine ⟨?_, ?_, ?_⟩
  · rw [h]
  · rw [h]
  · rw [h]
    rfl

theorem mem_invalidIndices (r : ValidationResult) (iw : Bool) (i : Nat) :
    i ∈ r.invalidIndices iw ↔
      ∃ fr ∈ r.fault_records,
        (fr.1 = Severity.error ∨ (iw = true ∧ fr.1 = Severity.warning)) ∧ i ∈ fr.2 := by
  unfold ValidationResult.invalidIndices
  simp only [List.mem_flatten, List.mem_map, List.mem_filter]
  constructor
  · rintro ⟨l, ⟨fr, ⟨hfr, hpred⟩, hsnd⟩, hi⟩
    refine ⟨fr, hfr, ?_, ?_⟩
    · revert hpred
      cases h1 : fr.1 <;> cases iw <;> simp [h1]
    · rw [hsnd]
      exact hi
  · rintro ⟨fr, hfr, hsev, hi⟩
    refine ⟨fr.2, ⟨fr, ⟨hfr, ?_⟩, rfl⟩, hi⟩
    rcases hsev with h | ⟨hw, h⟩ <;> simp [h]
    subst hw
    simp

theorem contains_invalidIndices_eq_any (r : ValidationResult) (iw : Bool) (i : Nat) :
    (r.invalidIndices iw).contains i =
      r.fault_records.any (fun fr =>
        (fr.1 == Severity.error || (iw && fr.1 == Severity.warning)) && fr.2.contains i) := by
  rw [Bool.eq_iff_iff]
  simp only [List.contains, List.elem_iff, List.any_eq_true, Bool.and_eq_true,
    Bool.or_eq_true, beq_iff_eq, mem_invalidIndices]

/-- C2: get_invalid_rows (whose include_warnings flag defaults to true in the
API) returns exactly the rows of the original table whose index appears in
some error-severity fault set plus, when include_warnings, those in some
warning-severity fault set, and the returned rows form a sublist of the
original table's rows, so row order is preserved. -/
theorem get_invalid_rows_eq_spec (r : ValidationResult) (t : Table) (iw : Bool) :
    r.get_invalid_rows t iw = invalidRowsSpec r t iw
    ∧ (r.get_invalid_rows t iw).Sublist t.rows := by
  constructor
  · unfold ValidationResult.get_invalid_rows invalidRowsSpec
    congr 1
    apply List.filter_congr
    intro p _
    exact contains_invalidIndices_eq_any r iw p.1
  · unfold ValidationResult.get_invalid_rows
    have h := (List.filter_sublist (p := fun p => (r.invalidIndices iw).contains p.1)
      t.rows.enum).map Prod.snd
    rwa [List.enum_map_snd] at h

/-- C7: the rows returned with include_warnings=false are always among the
rows returned with include_warnings=true — both as a sublist (order and
multiplicity respecting) and as plain set inclusion. -/
theorem get_invalid_rows_monotone_in_warnings (r : ValidationResult) (t : Table) :
    (r.get_invalid_rows t false).Sublist (r.get_invalid_rows t true)
    ∧ (r.get_invalid_rows t false) ⊆ (r.get_invalid_rows t true) := by
  have hsub : (r.get_invalid_rows t false).Sublist (r.get_invalid_rows t true) := by
    unfold ValidationResult.get_invalid_rows
    apply List.Sublist.map
    apply List.monotone_filter_right
    intro p hp
    simp only [List.contains, List.elem_iff, mem_invalidIndices] at hp ⊢
    rcases hp with ⟨fr, hfr, hsev, hi⟩
    refine ⟨fr, hfr, ?_, hi⟩
    rcases hsev with h | ⟨hw, h⟩
    · exact Or.inl h
    · cases hw
  exact ⟨hsub, hsub.subset⟩

/-- C3 counterexample: the claim says a check targeting an absent column
contributes a single error message.  For a warn-only check this is false:
with the one-check set on column x (absent from a table with only column y),
validate produces no error at all — the single missing-column message lands in
warnings, per the severity routing of Schema.validate. -/
theorem missing_column_warn_only_counterexample :
    (validate [Check.col ⟨"x", ColumnRule.notNull, true⟩] ⟨["y"], [[Value.int 1]]⟩).errors = []
    ∧ (validate [Check.col ⟨"x", ColumnRule.notNull, true⟩] ⟨["y"], [[Value.int 1]]⟩).warnings
        = [missingMsg "x"]
    ∧ (validate [Check.col ⟨"x", ColumnRule.notNull, true⟩] ⟨["y"], [[Value.int 1]]⟩).fault_records
        = [] := by
  decide

/-- C3 amended: a column check whose target column is absent from the table
never fails evaluation (runCheckSt is total): it contributes exactly one
message — the missing-column message, at error severity, or at warning
severity when the check is warn-only — and contributes no row indices to any
fault set. -/
theorem missing_column_degrades_to_single_message (cc : ColumnCheck) (t : Table)
    (h : t.series cc.column_name = none) :
    runCheck t (Check.col cc) = ⟨[missingMsg cc.column_name], cc.severity, []⟩
    ∧ validate [Check.col cc] t =
        ⟨(if cc.warn_only then [] else [missingMsg cc.column_name]),
         (if cc.warn_only then [missingMsg cc.column_name] else []),
         []⟩ := by
  have hrun : runCheck t (Check.col cc) = ⟨[missingMsg cc.column_name], cc.severity, []⟩ := by
    simp [runCheck, runCheckSt, h]
  refine ⟨hrun, ?_⟩
  rw [validate_cons, validate_nil, hrun]
  cases hw : cc.warn_only <;>
    simp [accumulate, ColumnCheck.severity, hw]

theorem missing_column_degrades_to_single_message_witness :
    (validate [Check.col ⟨"z", ColumnRule.notNull, false⟩] ⟨["y"], [[Value.int 1]]⟩).errors
      = [missingMsg "z"] := by
  have h := missing_column_degrades_to_single_message
    ⟨"z", ColumnRule.notNull, false⟩ ⟨["y"], [[Value.int 1]]⟩ (by decide)
  rw [h.2]
  rfl

theorem dup_contains_iff_count (keys : List (List Value)) (i : Nat) (k : List Value)
    (hk : keys[i]? = some k) :
    ((keys.take i).contains k || (keys.drop (i + 1)).contains k) = true ↔
      1 < keys.count k := by
  rw [List.getElem?_eq_some] at hk
  obtain ⟨hi, hget⟩ := hk
  have hdrop : keys.drop i = k :: keys.drop (i + 1) := by
    rw [List.drop_eq_getElem_cons hi, hget]
  have hcount : keys.count k =
      (keys.take i).count k + ((keys.drop (i + 1)).count k + 1) := by
    conv_lhs => rw [← List.take_append_drop i keys]
    rw [List.count_append, hdrop, List.count_cons]
    simp
  rw [Bool.or_eq_true]
  simp only [List.contains, List.elem_iff, ← List.count_pos_iff]
  omega

theorem mem_dupFaults (keys : List (List Value)) (i : Nat) :
    i ∈ dupFaults keys ↔ ∃ k, keys[i]? = some k ∧ 1 < keys.count k := by
  unfold dupFaults
  simp only [List.mem_map, List.mem_filter, List.mem_enum_iff_getElem?]
  constructor
  · rintro ⟨⟨j, k⟩, ⟨hget, hpred⟩, rfl⟩
    exact ⟨k, hget, (dup_contains_iff_count keys j k hget).mp hpred⟩
  · rintro ⟨k, hget, hcnt⟩
    exact ⟨(i, k), ⟨hget, (dup_contains_iff_count keys i k hget).mpr hcnt⟩, rfl⟩

theorem count_le_one_of_nodup (keys : List (List Value)) (hnd : keys.Nodup)
    (k : List Value) : keys.count k ≤ 1 := by
  induction keys with
  | nil => simp
  | cons a l ih =>
      rw [List.nodup_cons] at hnd
      rw [List.count_cons]
      cases hak : (a == k) with
      | true =>
          have hk : a = k := eq_of_beq hak
          subst hk
          have hz : l.count a = 0 := List.count_eq_zero.mpr hnd.1
          simp [hz]
      | false =>
          simpa [hak] using ih hnd.2

/-- C4: the uniqueness check over key columns K flags exactly the rows whose
K-tuple occurs more than once in the table — every member of a duplicate
group, first occurrence included — and flags no row when all K-tuples are
distinct. -/
theorem unique_flags_whole_duplicate_groups (t : Table) (key : Option (List String))
    (w : Bool) (i : Nat) :
    (i ∈ (runCheck t (Check.unique key w)).faults ↔
       ∃ k, (uniqueKeys t key)[i]? = some k ∧ 1 < (uniqueKeys t key).count k)
    ∧ ((uniqueKeys t key).Nodup → (runCheck t (Check.unique key w)).faults = []) := by
  have hfaults : (runCheck t (Check.unique key w)).faults = dupFaults (uniqueKeys t key) := rfl
  constructor
  · rw [hfaults]
    exact mem_dupFaults (uniqueKeys t key) i
  · intro hnd
    rw [hfaults]
    rw [List.eq_nil_iff_forall_not_mem]
    intro j hj
    rw [mem_dupFaults] at hj
    obtain ⟨k, _, hcnt⟩ := hj
    exact absurd (count_le_one_of_nodup (uniqueKeys t key) hnd k) (by omega)

theorem unique_flags_whole_duplicate_groups_witness :
    1 ∈ (runCheck ⟨["u", "e"],
          [[Value.int 1, Value.str "a"], [Value.int 2, Value.str "b"], [Value.int 2, Value.str "c"]]⟩
          (Check.unique (some ["u"]) false)).faults
    ∧ (runCheck ⟨["u"], [[Value.int 1], [Value.int 2], [Value.int 3]]⟩
          (Check.unique none false)).faults = [] := by
  constructor
  · exact (unique_flags_whole_duplicate_groups
      ⟨["u", "e"], [[Value.int 1, Value.str "a"], [Value.int 2, Value.str "b"],
        [Value.int 2, Value.str "c"]]⟩
      (some ["u"]) false 1).1.mpr ⟨[Value.int 2], by decide, by decide⟩
  · exact (unique_flags_whole_duplicate_groups
      ⟨["u"], [[Value.int 1], [Value.int 2], [Value.int 3]]⟩
      none false 0).2 (by decide)

theorem optGetD_bool (o : Option Bool) :
    (!(o.getD false)) = ((o == some false) || (o == none)) := by
  cases o with
  | none => rfl
  | some b => cases b <;> rfl

/-- C9: for a custom per-value predicate check, the fault set is exactly the
rows holding a non-null value on which the caller-supplied predicate returns
false or raises (a raised evaluation error is modelled as `none` and treated
as a failed value, per the try/except in evaluation), and the presence of such
a check never aborts the pass: validation of any concatenation of checks
yields the concatenation of the two parts' errors and warnings. -/
theorem custom_predicate_error_counts_as_failure (fn : Value → Option Bool)
    (desc name : String) (series : List Value) :
    (evalRule name (ColumnRule.custom fn desc) series).2
      = (series.enum.filter (fun p =>
          !(p.2 == Value.null) && ((fn p.2 == some false) || (fn p.2 == none)))).map Prod.fst
    ∧ ∀ (cs₁ cs₂ : List Check) (t : Table),
        (validate (cs₁ ++ cs₂) t).errors = (validate cs₁ t).errors ++ (validate cs₂ t).errors
        ∧ (validate (cs₁ ++ cs₂) t).warnings
            = (validate cs₁ t).warnings ++ (validate cs₂ t).warnings := by
  constructor
  · show (series.enum.filter (fun p => !(p.2 == Value.null) && !((fn p.2).getD false))).map Prod.fst
        = (series.enum.filter (fun p =>
            !(p.2 == Value.null) && ((fn p.2 == some false) || (fn p.2 == none)))).map Prod.fst
    congr 1
    apply List.filter_congr
    intro p _
    rw [optGetD_bool]
  · intro cs₁ cs₂ t
    constructor
    · simp [validate_errors, List.map_append, List.flatten_append]
    · simp [validate_warnings, List.map_append, List.flatten_append]

/-- The README example column: `age = [25, 18, 85.0]` declared `type=int`
(pandas renders the last cell as the whole float 85.0); `q` stands for the
float cell. -/
def ageTableIntFloat (q : ℚ) : Table :=
  ⟨["age"], [[Value.int 25], [Value.int 18], [Value.float q]]⟩

/-- C10: an integer type check accepts floating-point values with zero
fractional part: on the README age column whose third value is a whole float,
the check set with the single type=int check on age yields no error, no
warning, and no row fault. -/
theorem int_check_accepts_whole_floats (q : ℚ) (h : q.den = 1) :
    validate [Check.col ⟨"age", ColumnRule.typeIs ColumnType.intType, false⟩]
      (ageTableIntFloat q) = ⟨[], [], []⟩ := by
  have hser : (ageTableIntFloat q).series "age"
      = some [Value.int 25, Value.int 18, Value.float q] := rfl
  have hrun : runCheck (ageTableIntFloat q)
      (Check.col ⟨"age", ColumnRule.typeIs ColumnType.intType, false⟩)
      = ⟨[], Severity.error, []⟩ := by
    simp [runCheck, runCheckSt, hser, evalRule, typePasses, h, ColumnCheck.severity,
      List.enum, List.enumFrom, List.filter]
  rw [validate_cons, validate_nil, hrun]
  rfl

theorem int_check_accepts_whole_floats_witness :
    validate [Check.col ⟨"age", ColumnRule.typeIs ColumnType.intType, false⟩]
      (ageTableIntFloat 85) = ⟨[], [], []⟩ :=
  int_check_accepts_whole_floats 85 rfl

/-- The docs range-check table: integer column age = [25, 17, 101]. -/
def ageRangeTable : Table := ⟨["age"], [[Value.int 25], [Value.int 17], [Value.int 101]]⟩

/-- The docs range check: column age with min=18 and max=99. -/
def ageRangeCheck : ColumnCheck :=
  ⟨"age", ColumnRule.range (some (Value.int 18)) (some (Value.int 99)), false⟩

/-- C6 counterexample: the claim further requires each of the two range
messages to list example offending values.  The documented messages do not:
the sole below-min offending value is 17 and the sole above-max offending
value is 101, yet the decimal rendering of neither occurs anywhere in its
message ("Column 'age' has values less than 18." / "... greater than 99."). -/
theorem range_messages_omit_offending_values_counterexample :
    (runCheck ageRangeTable (Check.col ageRangeCheck)).messages
      = [ltMsg "age" (some (Value.int 18)), gtMsg "age" (some (Value.int 99))]
    ∧ ¬ (String.toList "17" <:+: String.toList (ltMsg "age" (some (Value.int 18))))
    ∧ ¬ (String.toList "101" <:+: String.toList (gtMsg "age" (some (Value.int 99)))) := by
  decide

/-- C6 amended: a range check with min=18 and max=99 on the integer column
[25, 17, 101] produces exactly two distinct error messages — one for the
below-min violation and one for the above-max violation, each naming its bound
but not listing the offending values — and its fault set is exactly the row
indices 1 and 2. -/
theorem range_check_two_messages_and_faults :
    (runCheck ageRangeTable (Check.col ageRangeCheck)).messages
      = [ltMsg "age" (some (Value.int 18)), gtMsg "age" (some (Value.int 99))]
    ∧ ltMsg "age" (some (Value.int 18)) ≠ gtMsg "age" (some (Value.int 99))
    ∧ (runCheck ageRangeTable (Check.col ageRangeCheck)).severity = Severity.error
    ∧ (runCheck ageRangeTable (Check.col ageRangeCheck)).faults = [1, 2]
    ∧ (validate [Check.col ageRangeCheck] ageRangeTable).errors.length = 2 := by
  decide

theorem concatAll_append (xs ys : List String) :
    concatAll (xs ++ ys) = concatAll xs ++ concatAll ys := by
  induction xs with
  | nil => simp [concatAll]
  | cons x xs ih => simp [concatAll, ih, String.append_assoc]

theorem intercalate_go_eq (s : String) (xs : List String) (acc : String) :
    String.intercalate.go acc s xs = acc ++ concatAll (xs.map (fun x => s ++ x)) := by
  induction xs generalizing acc with
  | nil => simp [String.intercalate.go, concatAll, String.append_empty]
  | cons x xs ih =>
      rw [String.intercalate.go, ih]
      simp [concatAll, String.append_assoc]

theorem intercalate_eq_concatAll (s a : String) (as : List String) :
    String.intercalate s (a :: as) = a ++ concatAll (as.map (fun x => s ++ x)) :=
  intercalate_go_eq s as a

theorem newline_dash (x : String) : "\n" ++ ("  - " ++ x) = "\n  - " ++ x := by
  rw [← String.append_assoc]
  rfl

theorem is_valid_eq_isEmpty (r : ValidationResult) : r.is_valid = r.errors.isEmpty := by
  obtain ⟨errs, _, _⟩ := r
  cases errs <;> rfl

theorem summary_eq_summarySpec (r : ValidationResult) : r.summary = summarySpec r := by
  obtain ⟨errs, warns, recs⟩ := r
  have hfun : (fun x => "\n" ++ ("  - " ++ x)) = (fun x : String => "\n  - " ++ x) :=
    funext newline_dash
  have hF : ("Validation " ++ "FAILED" : String) = "Validation FAILED" := rfl
  have hP : ("Validation " ++ "PASSED" : String) = "Validation PASSED" := rfl
  have hE : ("\n" ++ "Errors:" : String) = "\nErrors:" := rfl
  have hW : ("\n" ++ "Warnings:" : String) = "\nWarnings:" := rfl
  cases errs <;> cases warns <;>
    (simp only [ValidationResult.summary, summarySpec, is_valid_eq_isEmpty]
     simp only [List.isEmpty_cons, List.isEmpty_nil, Bool.false_eq_true, if_false, ite_false,
       if_true, ite_true, List.cons_append, List.nil_append, List.map_cons, List.length_cons,
       List.append_nil, List.length_nil, List.map_nil]
     rw [intercalate_eq_concatAll]
     simp only [List.map_cons, List.map_append, List.map_map, List.map_nil, concatAll,
       concatAll_append, Function.comp_def, hfun, newline_dash, hF, hP, hE, hW]
     simp only [String.append_assoc, String.append_empty])

/-- C5: summary() is the line-oriented report the claim describes: a header
line "Validation PASSED" or "Validation FAILED", a counts line
"n error(s), m warning(s)", then, when there are errors, an "Errors:" section
listing each error message prefixed "  - ", then a "Warnings:" section
formatted the same way; and the messages appear in check insertion order —
the errors (resp. warnings) list is the in-order concatenation of the
per-check contributions — with all errors listed before all warnings. -/
theorem summary_matches_line_format (cs : List Check) (t : Table) :
    (validate cs t).summary = summarySpec (validate cs t)
    ∧ (validate cs t).errors = (cs.map (errOf t)).flatten
    ∧ (validate cs t).warnings = (cs.map (warnOf t)).flatten :=
  ⟨summary_eq_summarySpec _, validate_errors cs t, validate_warnings cs t⟩

end Framecheck
